import Mathlib

/-! Formal model of the metric core (`src/event/metric.rs`): the `Metric` value
model, its merge (`Metric.add`) and reset (`Metric.reset`) operations, and
tag matching (`Metric.tag_matches`).

Modelling conventions:
* `f64` is modelled as `ℚ` (exact arithmetic; IEEE-754 rounding is not
  modelled — every claim below is about which additions/copies happen, not
  about rounding), `u32` as `ℕ`.
* `BTreeMap<String, String>` is modelled as an association list queried with
  `List.lookup` (the map has unique keys, so first-match lookup coincides
  with map lookup); `BTreeSet<String>` as a `List String` extended without
  duplicating elements already present.
* `DateTime<Utc>` is an opaque payload, modelled as `Int`; none of the
  operations inspect it.
* The in-place mutation `self.add(&other)` / `self.reset()` is modelled as a
  pure function returning the updated `self`.
-/

inductive MetricKind
  | Incremental
  | Absolute
  deriving DecidableEq

inductive StatisticKind
  | Histogram
  | Summary
  deriving DecidableEq

inductive MetricValue
  | Counter (value : ℚ)
  | Gauge (value : ℚ)
  | Set (values : List String)
  | Distribution (values : List ℚ) (sample_rates : List ℕ) (statistic : StatisticKind)
  | AggregatedHistogram (buckets : List ℚ) (counts : List ℕ) (count : ℕ) (sum : ℚ)
  | AggregatedSummary (quantiles : List ℚ) (values : List ℚ) (count : ℕ) (sum : ℚ)
  deriving DecidableEq

structure Metric where
  name : String
  timestamp : Option Int
  tags : Option (List (String × String))
  kind : MetricKind
  value : MetricValue
  deriving DecidableEq

/-- Model of `values.extend(values2.iter().map(Into::into))` on a `BTreeSet`: insert
each element of the second operand, keeping elements distinct. -/
def setExtend (values values2 : List String) : List String :=
  values2.foldl (fun acc v => if v ∈ acc then acc else acc ++ [v]) values

/-- Replace only the `value` field, as the mutations `*value += ...` etc. in
the source do: every other field of `self` is untouched. -/
def Metric.withValue (self : Metric) (v : MetricValue) : Metric :=
  { self with value := v }

/-- Model of `Metric::add` from `src/event/metric.rs` lines 95-149.  Early return if
`other.kind.is_absolute()`; then dispatch on the pair of payload variants.
The `Distribution` arm carries the match guard `statistic_a == statistic_b`
(on failure control falls through to the catch-all `_ => {}`); the
`AggregatedHistogram` arm checks `buckets == buckets2 && counts.len() ==
counts2.len()` inside its body before the count loop.  Any non-matching
pair is a no-op. -/
def Metric.add (self other : Metric) : Metric :=
  if other.kind = MetricKind.Absolute then self
  else
    match self.value, other.value with
    | MetricValue.Counter value, MetricValue.Counter value2 =>
        self.withValue (MetricValue.Counter (value + value2))
    | MetricValue.Gauge value, MetricValue.Gauge value2 =>
        self.withValue (MetricValue.Gauge (value + value2))
    | MetricValue.Set values, MetricValue.Set values2 =>
        self.withValue (MetricValue.Set (setExtend values values2))
    | MetricValue.Distribution values sample_rates statistic_a,
      MetricValue.Distribution values2 sample_rates2 statistic_b =>
        if statistic_a = statistic_b then
          self.withValue
            (MetricValue.Distribution (values ++ values2)
              (sample_rates ++ sample_rates2) statistic_a)
        else self
    | MetricValue.AggregatedHistogram buckets counts count sum,
      MetricValue.AggregatedHistogram buckets2 counts2 count2 sum2 =>
        if buckets = buckets2 ∧ counts.length = counts2.length then
          self.withValue
            (MetricValue.AggregatedHistogram buckets
              (List.zipWith (· + ·) counts counts2) (count + count2) (sum + sum2))
        else self
    | _, _ => self

/-- The histogram merge loop
`for (i, c) in counts2.iter().enumerate() { counts[i] += c; }`
with the index access made explicit: consuming one head of the first list per
step is position `i`, and `none` models the out-of-bounds panic that
`counts[i]` would raise when `counts2` is longer than `counts`. -/
def addCountsChecked : List ℕ → List ℕ → Option (List ℕ)
  | counts, [] => some counts
  | [], _ :: _ => none
  | x :: xs, c :: cs => (addCountsChecked xs cs).map fun t => (x + c) :: t

/-- Model of `Metric::add` again, with the only indexed access in the whole core (the
histogram count loop) replaced by its checked model `addCountsChecked`;
`none` would mean a panic.  All other arms are structurally total. -/
def Metric.addChecked (self other : Metric) : Option Metric :=
  if other.kind = MetricKind.Absolute then some self
  else
    match self.value, other.value with
    | MetricValue.Counter value, MetricValue.Counter value2 =>
        some (self.withValue (MetricValue.Counter (value + value2)))
    | MetricValue.Gauge value, MetricValue.Gauge value2 =>
        some (self.withValue (MetricValue.Gauge (value + value2)))
    | MetricValue.Set values, MetricValue.Set values2 =>
        some (self.withValue (MetricValue.Set (setExtend values values2)))
    | MetricValue.Distribution values sample_rates statistic_a,
      MetricValue.Distribution values2 sample_rates2 statistic_b =>
        if statistic_a = statistic_b then
          some (self.withValue
            (MetricValue.Distribution (values ++ values2)
              (sample_rates ++ sample_rates2) statistic_a))
        else some self
    | MetricValue.AggregatedHistogram buckets counts count sum,
      MetricValue.AggregatedHistogram buckets2 counts2 count2 sum2 =>
        if buckets = buckets2 ∧ counts.length = counts2.length then
          (addCountsChecked counts counts2).map fun counts3 =>
            self.withValue
              (MetricValue.AggregatedHistogram buckets counts3
                (count + count2) (sum + sum2))
        else some self
    | _, _ => some self

/-- Model of `Metric::reset` from `src/event/metric.rs` lines 155-199: zero the
accumulated data, keeping the histogram buckets and summary quantiles
intact; distributions and sets are emptied. -/
def Metric.reset (self : Metric) : Metric :=
  self.withValue
    (match self.value with
    | MetricValue.Counter _ => MetricValue.Counter 0
    | MetricValue.Gauge _ => MetricValue.Gauge 0
    | MetricValue.Set _ => MetricValue.Set []
    | MetricValue.Distribution _ _ statistic =>
        MetricValue.Distribution [] [] statistic
    | MetricValue.AggregatedHistogram buckets counts _ _ =>
        MetricValue.AggregatedHistogram buckets (counts.map fun _ => 0) 0 0
    | MetricValue.AggregatedSummary quantiles values _ _ =>
        MetricValue.AggregatedSummary quantiles (values.map fun _ => 0) 0 0)

/-- Model of `Metric::tag_matches` from `src/event/metric.rs` lines 245-250:
`self.tags.as_ref().filter(|t| t.get(name).filter(|v| *v == value).is_some()).is_some()`. -/
def Metric.tag_matches (self : Metric) (name value : String) : Bool :=
  (self.tags.filter fun t => ((t.lookup name).filter fun v => v = value).isSome).isSome

/-- The discriminant of a `MetricValue` (which of the six payload variants
it is), used to state variant-preservation properties. -/
inductive MetricVariant
  | counter
  | gauge
  | set
  | distribution
  | aggregatedHistogram
  | aggregatedSummary
  deriving DecidableEq

def MetricValue.variant : MetricValue → MetricVariant
  | MetricValue.Counter _ => MetricVariant.counter
  | MetricValue.Gauge _ => MetricVariant.gauge
  | MetricValue.Set _ => MetricVariant.set
  | MetricValue.Distribution _ _ _ => MetricVariant.distribution
  | MetricValue.AggregatedHistogram _ _ _ _ => MetricVariant.aggregatedHistogram
  | MetricValue.AggregatedSummary _ _ _ _ => MetricVariant.aggregatedSummary

/-- Model of one `write!` into a `fmt::Formatter` backed by a `String`
buffer: the `fmt::Write` impl for `String` never fails, so the write
appends to the buffer and succeeds; `none` would model a propagated
`fmt::Error` or a panic. -/
def fmtWrite (buf s : String) : Option String :=
  some (buf ++ s)

/-- Modelled stand-in for Rust's `{:?}` (Debug) rendering of a string:
quote the word and escape the body.  The exact escape set is std-library
behaviour, not code of this repository; the claims depend only on this
being a total function. -/
def debugStr (s : String) : String :=
  "\"" ++ String.join (s.toList.map fun c =>
    if c = '"' then "\\\"" else if c = '\\' then "\\\\" else String.singleton c) ++ "\""

/-- Modelled stand-in for the std `Debug` rendering of a `DateTime<Utc>`
timestamp (modelled as `Int`); its exact text is std-library behaviour,
not code of this repository, and only its totality matters here. -/
def debugTimestamp (t : Int) : String :=
  toString t

/-- Model of `write_word` from `src/event/metric.rs` lines 369-375: a word
containing any character that is not ASCII-alphanumeric and not an
underscore is rendered with the quoting `Debug` format (`Char.isAlphanum`
tests exactly the ASCII ranges, like `char::is_ascii_alphanumeric`),
otherwise it is written bare. -/
def write_wordChecked (buf word : String) : Option String :=
  if word.toList.any fun c => (!c.isAlphanum) && (c != '_') then
    fmtWrite buf (debugStr word)
  else
    fmtWrite buf word

/-- Model of `write_list` from `src/event/metric.rs` lines 350-367: write
each item, preceded by the separator from the second item on (`this_sep`
starts empty and becomes `sep` after the first item), threading the
`Result` of every step as the source's `?` operators do. -/
def write_listChecked {α : Type} (sep : String)
    (writer : String → α → Option String) :
    String → String → List α → Option String
  | buf, _, [] => some buf
  | buf, this_sep, item :: rest =>
      (fmtWrite buf this_sep).bind fun b1 =>
        (writer b1 item).bind fun b2 =>
          write_listChecked sep writer b2 sep rest

/-- Model of the `Display` impl for `Metric` from `src/event/metric.rs`
lines 253-348, rendering `TIMESTAMP NAME{TAGS} KIND DATA` with every
`write!`/`?` step threaded through the fallible buffer writes.  The
parallel sequences of the distribution, histogram and summary payloads
are combined with `zip`, which truncates at the shorter operand, so no
arm indexes a sequence.  The scalar renderings (`f64`, `u32` via
`toString` on the model types, the timestamp and the string escaping) are
std-library primitives, modelled by the total stand-ins above. -/
def Metric.fmtChecked (self : Metric) : Option String :=
  (match self.timestamp with
    | some timestamp => fmtWrite "" (debugTimestamp timestamp ++ " ")
    | none => some "").bind fun b1 =>
  (write_wordChecked b1 self.name).bind fun b2 =>
  (fmtWrite b2 "\x7b").bind fun b3 =>
  (match self.tags with
    | some tags =>
        write_listChecked "," (fun b (kv : String × String) =>
          (write_wordChecked b kv.1).bind fun bk =>
            fmtWrite bk ("=" ++ debugStr kv.2)) b3 "" tags
    | none => some b3).bind fun b4 =>
  (fmtWrite b4 ("\x7d " ++
    (match self.kind with
      | MetricKind.Absolute => "="
      | MetricKind.Incremental => "+") ++ " ")).bind fun b5 =>
  match self.value with
  | MetricValue.Counter value => fmtWrite b5 (toString value)
  | MetricValue.Gauge value => fmtWrite b5 (toString value)
  | MetricValue.Set values =>
      write_listChecked " " (fun b v => write_wordChecked b v) b5 "" values
  | MetricValue.Distribution values sample_rates statistic =>
      (fmtWrite b5 ((match statistic with
        | StatisticKind.Histogram => "histogram"
        | StatisticKind.Summary => "summary") ++ " ")).bind fun b6 =>
      write_listChecked " " (fun b (vr : ℚ × ℕ) =>
          fmtWrite b (toString vr.2 ++ "@" ++ toString vr.1)) b6 ""
        (values.zip sample_rates)
  | MetricValue.AggregatedHistogram buckets counts count sum =>
      (fmtWrite b5
          ("count=" ++ toString count ++ " sum=" ++ toString sum ++ " ")).bind fun b6 =>
      write_listChecked " " (fun b (bc : ℚ × ℕ) =>
          fmtWrite b (toString bc.2 ++ "@" ++ toString bc.1)) b6 ""
        (buckets.zip counts)
  | MetricValue.AggregatedSummary quantiles values count sum =>
      (fmtWrite b5
          ("count=" ++ toString count ++ " sum=" ++ toString sum ++ " ")).bind fun b6 =>
      write_listChecked " " (fun b (qv : ℚ × ℚ) =>
          fmtWrite b (toString qv.1 ++ "@" ++ toString qv.2)) b6 ""
        (quantiles.zip values)

example :
    Metric.add
      ⟨"counter", none, none, MetricKind.Incremental, MetricValue.Counter 1⟩
      ⟨"counter", some 0, none, MetricKind.Incremental, MetricValue.Counter 2⟩ =
      ⟨"counter", none, none, MetricKind.Incremental, MetricValue.Counter 3⟩ := by
  norm_num [Metric.add, Metric.withValue]
  decide

example :
    Metric.add
      ⟨"hist", none, none, MetricKind.Incremental,
        MetricValue.Distribution [1] [10] StatisticKind.Histogram⟩
      ⟨"hist", none, none, MetricKind.Incremental,
        MetricValue.Distribution [1] [20] StatisticKind.Histogram⟩ =
      ⟨"hist", none, none, MetricKind.Incremental,
        MetricValue.Distribution [1, 1] [10, 20] StatisticKind.Histogram⟩ := by
  norm_num [Metric.add, Metric.withValue]
  decide

theorem map_const_eq_replicate {α β : Type} (l : List α) (b : β) :
    (l.map fun _ => b) = List.replicate l.length b := by
  induction l with
  | nil => rfl
  | cons x xs ih => simp [List.replicate, ih]

theorem addCountsChecked_eq_zipWith {counts counts2 : List ℕ}
    (h : counts.length = counts2.length) :
    addCountsChecked counts counts2 = some (List.zipWith (· + ·) counts counts2) := by
  induction counts2 generalizing counts with
  | nil =>
    cases counts with
    | nil => rfl
    | cons x xs => simp at h
  | cons c cs ih =>
    cases counts with
    | nil => simp at h
    | cons x xs =>
      simp only [List.length_cons, Nat.succ.injEq] at h
      simp [addCountsChecked, ih h]

/-- C4: `add` never changes `name`, `tags`, `timestamp` or `kind` of the
target; only the `value` field may change. -/
theorem add_frame (t o : Metric) :
    (t.add o).name = t.name ∧ (t.add o).tags = t.tags ∧
      (t.add o).timestamp = t.timestamp ∧ (t.add o).kind = t.kind := by
  obtain ⟨n, ts, tg, k, v⟩ := t
  obtain ⟨n2, ts2, tg2, k2, v2⟩ := o
  cases k2 <;> cases v <;> cases v2 <;>
    simp [Metric.add, Metric.withValue] <;> split_ifs <;> simp

/-- Helper for the safety claim: the checked execution of `add` (where an
out-of-bounds access in the histogram count loop would be `none`) always
succeeds and agrees with the total function `add`, because the loop runs
only under the guard `buckets == buckets2 && counts.len() == counts2.len()`. -/
theorem addChecked_total (t o : Metric) : t.addChecked o = some (t.add o) := by
  obtain ⟨n, ts, tg, k, v⟩ := t
  obtain ⟨n2, ts2, tg2, k2, v2⟩ := o
  cases k2 <;> cases v <;> cases v2 <;>
    simp [Metric.add, Metric.addChecked, Metric.withValue]
  case _ statistic values sample_rates values2 sample_rates2 statistic2 =>
    split_ifs <;> simp
  case _ buckets counts count sum buckets2 counts2 count2 sum2 =>
    split_ifs with h
    · simp [addCountsChecked_eq_zipWith h.2]
    · simp

/-- C1 (amended): for two `AggregatedHistogram` payloads with an
Incremental `other`, when the bucket sequences are equal AND the counts
sequences have equal length, `add` sums the counts position-wise, adds
`other`'s `count` and `sum` into the target, and leaves `buckets`
unchanged; when the buckets differ or the counts lengths differ, the
target is left completely unchanged. -/
theorem add_aggregatedHistogram_spec (t o : Metric)
    (buckets : List ℚ) (counts : List ℕ) (count : ℕ) (sum : ℚ)
    (buckets2 : List ℚ) (counts2 : List ℕ) (count2 : ℕ) (sum2 : ℚ)
    (ht : t.value = MetricValue.AggregatedHistogram buckets counts count sum)
    (ho : o.value = MetricValue.AggregatedHistogram buckets2 counts2 count2 sum2)
    (hk : o.kind = MetricKind.Incremental) :
    (buckets = buckets2 ∧ counts.length = counts2.length →
      t.add o = t.withValue
        (MetricValue.AggregatedHistogram buckets
          (List.zipWith (· + ·) counts counts2) (count + count2) (sum + sum2))) ∧
    (¬(buckets = buckets2 ∧ counts.length = counts2.length) → t.add o = t) := by
  constructor <;> intro h <;>
    simp [Metric.add, ht, ho, hk, h]

theorem add_aggregatedHistogram_spec_witness :
    Metric.add
        ⟨"h", none, none, MetricKind.Incremental,
          MetricValue.AggregatedHistogram [1] [2] 3 4⟩
        ⟨"h", none, none, MetricKind.Incremental,
          MetricValue.AggregatedHistogram [1] [5] 6 7⟩ =
      Metric.withValue
        ⟨"h", none, none, MetricKind.Incremental,
          MetricValue.AggregatedHistogram [1] [2] 3 4⟩
        (MetricValue.AggregatedHistogram [1]
          (List.zipWith (· + ·) [2] [5]) (3 + 6) (4 + 7)) :=
  (add_aggregatedHistogram_spec
      ⟨"h", none, none, MetricKind.Incremental,
        MetricValue.AggregatedHistogram [1] [2] 3 4⟩
      ⟨"h", none, none, MetricKind.Incremental,
        MetricValue.AggregatedHistogram [1] [5] 6 7⟩
      [1] [2] 3 4 [1] [5] 6 7 rfl rfl rfl).1 ⟨rfl, rfl⟩

/-- C1 counterexample: the claim omits the `counts.len() == counts2.len()`
half of the guard.  With equal buckets `[1]` but counts sequences of
lengths 0 and 1, the claim prescribes that `other`'s `count` (7) and `sum`
(1) are added into the target, yet the code leaves the target completely
unchanged (its `count` stays 0). -/
theorem add_aggregatedHistogram_counterexample :
    Metric.add
        ⟨"h", none, none, MetricKind.Incremental,
          MetricValue.AggregatedHistogram [1] [] 0 0⟩
        ⟨"h", none, none, MetricKind.Incremental,
          MetricValue.AggregatedHistogram [1] [5] 7 1⟩ =
      ⟨"h", none, none, MetricKind.Incremental,
        MetricValue.AggregatedHistogram [1] [] 0 0⟩ ∧
    (Metric.add
        ⟨"h", none, none, MetricKind.Incremental,
          MetricValue.AggregatedHistogram [1] [] 0 0⟩
        ⟨"h", none, none, MetricKind.Incremental,
          MetricValue.AggregatedHistogram [1] [5] 7 1⟩).value ≠
      MetricValue.AggregatedHistogram [1] [] 7 1 := by
  decide

/-- C2: merging two Counters or two Gauges with an Incremental `other`
adds the values (gauges merge by addition of the delta, not replacement);
merging with an Absolute `other` is a no-op whatever the payloads. -/
theorem add_numeric_spec (t o : Metric) :
    (∀ a b, t.value = MetricValue.Counter a → o.value = MetricValue.Counter b →
      o.kind = MetricKind.Incremental →
      (t.add o).value = MetricValue.Counter (a + b)) ∧
    (∀ a b, t.value = MetricValue.Gauge a → o.value = MetricValue.Gauge b →
      o.kind = MetricKind.Incremental →
      (t.add o).value = MetricValue.Gauge (a + b)) ∧
    (o.kind = MetricKind.Absolute → t.add o = t) := by
  refine ⟨?_, ?_, ?_⟩
  · intro a b ht ho hk
    simp [Metric.add, ht, ho, hk, Metric.withValue]
  · intro a b ht ho hk
    simp [Metric.add, ht, ho, hk, Metric.withValue]
  · intro hk
    simp [Metric.add, hk]

theorem add_numeric_spec_witness :
    (Metric.add ⟨"c", none, none, MetricKind.Incremental, MetricValue.Counter 1⟩
        ⟨"c", some 0, none, MetricKind.Incremental, MetricValue.Counter 2⟩).value =
      MetricValue.Counter (1 + 2) :=
  (add_numeric_spec
      ⟨"c", none, none, MetricKind.Incremental, MetricValue.Counter 1⟩
      ⟨"c", some 0, none, MetricKind.Incremental, MetricValue.Counter 2⟩).1
    1 2 rfl rfl rfl

/-- C3: with an Incremental `other`, a pair of different payload variants,
or a pair of two `AggregatedSummary` payloads, is a silent no-op: the
target is left completely unchanged and the (total) function raises no
error. -/
theorem add_mismatch_noop (t o : Metric) (hk : o.kind = MetricKind.Incremental)
    (h : t.value.variant ≠ o.value.variant ∨
      (t.value.variant = MetricVariant.aggregatedSummary ∧
        o.value.variant = MetricVariant.aggregatedSummary)) :
    t.add o = t := by
  obtain ⟨n, ts, tg, k, v⟩ := t
  obtain ⟨n2, ts2, tg2, k2, v2⟩ := o
  cases v <;> cases v2 <;> simp_all [Metric.add, MetricValue.variant]

theorem add_mismatch_noop_witness :
    Metric.add ⟨"x", none, none, MetricKind.Incremental, MetricValue.Counter 1⟩
        ⟨"x", none, none, MetricKind.Incremental, MetricValue.Gauge 2⟩ =
      ⟨"x", none, none, MetricKind.Incremental, MetricValue.Counter 1⟩ :=
  add_mismatch_noop
    ⟨"x", none, none, MetricKind.Incremental, MetricValue.Counter 1⟩
    ⟨"x", none, none, MetricKind.Incremental, MetricValue.Gauge 2⟩
    rfl (Or.inl (by decide))

/-- C5: merging two `Distribution` payloads with an Incremental `other`
and equal statistics concatenates `values` and `sample_rates` (left
operand first, original relative order, result lengths the sums of the
operands' lengths); with differing statistics the target is left
unchanged. -/
theorem add_distribution_spec (t o : Metric)
    (values : List ℚ) (sample_rates : List ℕ) (statistic : StatisticKind)
    (values2 : List ℚ) (sample_rates2 : List ℕ) (statistic2 : StatisticKind)
    (ht : t.value = MetricValue.Distribution values sample_rates statistic)
    (ho : o.value = MetricValue.Distribution values2 sample_rates2 statistic2)
    (hk : o.kind = MetricKind.Incremental) :
    (statistic = statistic2 →
      (t.add o).value =
        MetricValue.Distribution (values ++ values2)
          (sample_rates ++ sample_rates2) statistic ∧
      (values ++ values2).length = values.length + values2.length ∧
      (sample_rates ++ sample_rates2).length =
        sample_rates.length + sample_rates2.length) ∧
    (statistic ≠ statistic2 → t.add o = t) := by
  constructor <;> intro h <;>
    simp [Metric.add, ht, ho, hk, h, Metric.withValue]

theorem add_distribution_spec_witness :
    (Metric.add
        ⟨"d", none, none, MetricKind.Incremental,
          MetricValue.Distribution [1] [10] StatisticKind.Histogram⟩
        ⟨"d", none, none, MetricKind.Incremental,
          MetricValue.Distribution [2] [20] StatisticKind.Histogram⟩).value =
      MetricValue.Distribution ([1] ++ [2]) ([10] ++ [20]) StatisticKind.Histogram ∧
    (([1] ++ [2] : List ℚ)).length = ([1] : List ℚ).length + ([2] : List ℚ).length ∧
    (([10] ++ [20] : List ℕ)).length = ([10] : List ℕ).length + ([20] : List ℕ).length :=
  (add_distribution_spec
      ⟨"d", none, none, MetricKind.Incremental,
        MetricValue.Distribution [1] [10] StatisticKind.Histogram⟩
      ⟨"d", none, none, MetricKind.Incremental,
        MetricValue.Distribution [2] [20] StatisticKind.Histogram⟩
      [1] [10] StatisticKind.Histogram [2] [20] StatisticKind.Histogram
      rfl rfl rfl).1 rfl

/-- C6: `reset` zeroes accumulated magnitude while preserving structural
shape: Counter/Gauge value becomes 0, a Set and a Distribution are
emptied (the Distribution keeping its statistic), an AggregatedHistogram
keeps its buckets and gets an all-zero counts sequence of the same
length with `count` 0 and `sum` 0, an AggregatedSummary keeps its
quantiles and gets an all-zero values sequence of the same length with
`count` 0 and `sum` 0. -/
theorem reset_spec (n : String) (ts : Option Int)
    (tg : Option (List (String × String))) (k : MetricKind) :
    (∀ a, (Metric.reset ⟨n, ts, tg, k, MetricValue.Counter a⟩).value =
      MetricValue.Counter 0) ∧
    (∀ a, (Metric.reset ⟨n, ts, tg, k, MetricValue.Gauge a⟩).value =
      MetricValue.Gauge 0) ∧
    (∀ vs, (Metric.reset ⟨n, ts, tg, k, MetricValue.Set vs⟩).value =
      MetricValue.Set []) ∧
    (∀ vs rs st,
      (Metric.reset ⟨n, ts, tg, k, MetricValue.Distribution vs rs st⟩).value =
        MetricValue.Distribution [] [] st) ∧
    (∀ bs cs c s,
      (Metric.reset ⟨n, ts, tg, k,
          MetricValue.AggregatedHistogram bs cs c s⟩).value =
        MetricValue.AggregatedHistogram bs (List.replicate cs.length 0) 0 0) ∧
    (∀ qs vs c s,
      (Metric.reset ⟨n, ts, tg, k,
          MetricValue.AggregatedSummary qs vs c s⟩).value =
        MetricValue.AggregatedSummary qs (List.replicate vs.length 0) 0 0) := by
  refine ⟨fun a => rfl, fun a => rfl, fun vs => rfl, fun vs rs st => rfl,
    fun bs cs c s => ?_, fun qs vs c s => ?_⟩ <;>
    simp [Metric.reset, Metric.withValue, map_const_eq_replicate]

/-- C7: neither `add` (with any other operand) nor `reset` ever changes
the payload variant of a metric — a Counter never becomes a Gauge. -/
theorem variant_preserved (t o : Metric) :
    ((t.add o).value).variant = t.value.variant ∧
      ((t.reset).value).variant = t.value.variant := by
  constructor
  · obtain ⟨n, ts, tg, k, v⟩ := t
    obtain ⟨n2, ts2, tg2, k2, v2⟩ := o
    cases k2 <;> cases v <;> cases v2 <;>
      simp [Metric.add, Metric.withValue, MetricValue.variant] <;>
        split_ifs <;> simp [MetricValue.variant]
  · obtain ⟨n, ts, tg, k, v⟩ := t
    cases v <;> simp [Metric.reset, Metric.withValue, MetricValue.variant]

/-- C9: `tag_matches m key value` is true iff `m.tags` is present and maps
`key` to exactly `value`; it is false when `tags` is `none`, when `key` is
absent, or when the stored value differs from `value`. -/
theorem tag_matches_iff (m : Metric) (key value : String) :
    m.tag_matches key value = true ↔
      ∃ tags, m.tags = some tags ∧ tags.lookup key = some value := by
  obtain ⟨n, ts, tg, k, v⟩ := m
  cases tg with
  | none => simp [Metric.tag_matches, Option.filter]
  | some tags =>
    cases h : tags.lookup key with
    | none => simp [Metric.tag_matches, Option.filter, h]
    | some w =>
      by_cases hw : w = value <;>
        simp [Metric.tag_matches, Option.filter, h, hw]

/-- C10: `add` never examines `target.kind`: for any two settings of the
target's kind the resulting payload is the same, so an Incremental delta
accumulates the same way on an Absolute-established total as on an
Incremental one (only `other.kind` is tested, at entry). -/
theorem add_ignores_target_kind (t o : Metric) (ka kb : MetricKind) :
    (Metric.add { t with kind := ka } o).value =
      (Metric.add { t with kind := kb } o).value := by
  obtain ⟨n, ts, tg, k, v⟩ := t
  obtain ⟨n2, ts2, tg2, k2, v2⟩ := o
  cases k2 <;> cases v <;> cases v2 <;>
    simp [Metric.add, Metric.withValue] <;> split_ifs <;> rfl

theorem bind_isSome {α β : Type} {e : Option α} {f : α → Option β}
    (he : ∃ s, e = some s) (hf : ∀ s, ∃ t, f s = some t) :
    ∃ t, e.bind f = some t := by
  obtain ⟨s, rfl⟩ := he
  exact hf s

theorem write_wordChecked_isSome (buf word : String) :
    ∃ s, write_wordChecked buf word = some s := by
  unfold write_wordChecked fmtWrite
  split <;> exact ⟨_, rfl⟩

theorem write_listChecked_isSome {α : Type} (sep : String)
    (writer : String → α → Option String)
    (hw : ∀ b a, ∃ s, writer b a = some s) (items : List α) :
    ∀ buf this_sep, ∃ s, write_listChecked sep writer buf this_sep items = some s := by
  induction items with
  | nil => exact fun buf this_sep => ⟨buf, rfl⟩
  | cons a rest ih =>
    intro buf this_sep
    obtain ⟨s1, h1⟩ := hw (buf ++ this_sep) a
    obtain ⟨s2, h2⟩ := ih s1 sep
    exact ⟨s2, by simp [write_listChecked, fmtWrite, h1, h2]⟩

/-- Helper for the safety claim: the `Display` formatter, with its
`Result` threading made explicit, succeeds on every metric — including
metrics whose parallel sequences have differing lengths, since every arm
combines them with the truncating `zip` and nothing is indexed. -/
theorem fmtChecked_isSome (m : Metric) : ∃ s, m.fmtChecked = some s := by
  obtain ⟨n, ts, tg, k, v⟩ := m
  unfold Metric.fmtChecked
  refine bind_isSome ?_ fun b1 =>
    bind_isSome (write_wordChecked_isSome b1 n) fun b2 =>
    bind_isSome ⟨_, rfl⟩ fun b3 =>
    bind_isSome ?_ fun b4 =>
    bind_isSome ⟨_, rfl⟩ fun b5 => ?_
  · cases ts <;> exact ⟨_, rfl⟩
  · cases tg with
    | none => exact ⟨_, rfl⟩
    | some tags =>
      exact write_listChecked_isSome "," _
        (fun b kv =>
          bind_isSome (write_wordChecked_isSome b kv.1) fun bk => ⟨_, rfl⟩)
        tags b3 ""
  · cases v with
    | Counter value => exact ⟨_, rfl⟩
    | Gauge value => exact ⟨_, rfl⟩
    | Set values =>
      exact write_listChecked_isSome " " _
        (fun b a => write_wordChecked_isSome b a) values b5 ""
    | Distribution values sample_rates statistic =>
      exact bind_isSome ⟨_, rfl⟩ fun b6 =>
        write_listChecked_isSome " " _ (fun b a => ⟨_, rfl⟩)
          (values.zip sample_rates) b6 ""
    | AggregatedHistogram buckets counts count sum =>
      exact bind_isSome ⟨_, rfl⟩ fun b6 =>
        write_listChecked_isSome " " _ (fun b a => ⟨_, rfl⟩)
          (buckets.zip counts) b6 ""
    | AggregatedSummary quantiles values count sum =>
      exact bind_isSome ⟨_, rfl⟩ fun b6 =>
        write_listChecked_isSome " " _ (fun b a => ⟨_, rfl⟩)
          (quantiles.zip values) b6 ""

/-- C8: no core operation (`add`, `reset`, `tag_matches`, `Display`
formatting) can panic or corrupt a metric for any inputs, including inputs
violating the parallel-length invariants.  The two operations with a
fallible structure are proved to always succeed: the checked execution of
`add` (where the histogram count loop's `counts[i]` access would be `none`
out of bounds) agrees with the total `add` for every input, because the
loop runs only under the guard requiring the counts sequences to have
equal length, so the worst-case outcome is a no-op, never a crash; and the
checked `Display` formatter `fmtChecked` (every `write!`/`?` step
threaded, parallel sequences combined with the truncating `zip`, nothing
indexed) succeeds on every metric.  `reset` and `tag_matches` contain no
indexing or other fallible construct and are modelled by the total
functions `Metric.reset` and `Metric.tag_matches`. -/
theorem core_ops_no_panic (t o m : Metric) :
    t.addChecked o = some (t.add o) ∧ ∃ s, m.fmtChecked = some s :=
  ⟨addChecked_total t o, fmtChecked_isSome m⟩
